import Mathlib

/-!
Verification of the seat-booking core of `src/index.ts` (an Express +
Mongoose booking backend).  The MongoDB collections are embedded as plain
Lean lists, documents as structures, and each HTTP handler body as a pure
function from a store (plus the request data the middleware hands it) to a
new store and a response.  Transactions are modelled by computing all seat
mutations on the snapshot read inside the handler and applying them to the
store only on the commit path; every thrown error aborts with the store
unchanged, exactly as an aborted MongoDB transaction leaves the data.
-/

namespace BookingBackend

/-- `bookedBy` subdocument of a booking entry (src/index.ts line 77). -/
structure BookedBy where
  name : String
  email : String
  phone : Option String
deriving DecidableEq, Repr

/-- One element of a seat's `bookings` array (src/index.ts lines 75-79). -/
structure BookingEntry where
  date : String
  bookedBy : BookedBy
  status : String
deriving DecidableEq, Repr

/-- A document of the `Seat` collection (src/index.ts lines 81-88). -/
structure Seat where
  seatId : String
  row : String
  column : Nat
  price : Nat
  eventId : String
  bookings : List BookingEntry
deriving DecidableEq, Repr

/-- A document of the `Event` collection (src/index.ts lines 62-73); only
the fields the seat-reservation core reads are kept. -/
structure Event where
  id : String
  name : String
  date : String
  totalSeats : Nat
  registrationClosed : Bool
deriving DecidableEq, Repr

/-- The database state the seat-reservation core touches: the `Event` and
`Seat` collections, as lists in collection-scan order. -/
structure Store where
  events : List Event
  seats : List Seat
deriving DecidableEq, Repr

/-- The authenticated requester attached by `authenticateToken`; the core
only reads `isAdmin`. -/
structure Requester where
  isAdmin : Bool
deriving DecidableEq, Repr

/-- mongoose `isValidObjectId`: a 24-character hex string. -/
def isValidObjectId (s : String) : Bool :=
  s.length == 24 && s.toList.all (fun c => c.isDigit || ('a' ≤ c && c ≤ 'f'))

/-- The seatId shape `/^[A-Z][1-9][0-9]?$/` used at src/index.ts line 1369. -/
def seatIdFormatOk (s : String) : Bool :=
  match s.toList with
  | [a, b] => ('A' ≤ a && a ≤ 'Z') && ('1' ≤ b && b ≤ '9')
  | [a, b, c] => ('A' ≤ a && a ≤ 'Z') && ('1' ≤ b && b ≤ '9') && ('0' ≤ c && c ≤ '9')
  | _ => false

/-- JavaScript `String.prototype.includes` on char lists. -/
def includesChars (pat : List Char) : List Char → Bool
  | [] => pat.isEmpty
  | c :: rest => List.isPrefixOf pat (c :: rest) || includesChars pat rest

/-- JavaScript `hay.includes(pat)`. -/
def strIncludes (hay pat : String) : Bool :=
  includesChars pat.toList hay.toList

/-- `Event.findById` (first document whose id matches). -/
def findEventById (store : Store) (id : String) : Option Event :=
  store.events.find? (fun e => e.id == id)

/-- `Event.findOne({ date })`. -/
def findEventByDate (store : Store) (date : String) : Option Event :=
  store.events.find? (fun e => e.date == date)

/-- `Seat.find({ eventId })` / `Seat.countDocuments({ eventId })` source. -/
def eventSeats (store : Store) (eventId : String) : List Seat :=
  store.seats.filter (fun s => s.eventId == eventId)

/-- `Seat.countDocuments({ eventId })` (src/index.ts line 756). -/
def countSeats (store : Store) (eventId : String) : Nat :=
  (eventSeats store eventId).length

/-- The row letters `"ABCDEFGHIJKLMNOPQRSTUVWXYZ".split("")`
(src/index.ts line 765). -/
def seatRows : List Char := "ABCDEFGHIJKLMNOPQRSTUVWXYZ".toList

/-- The column numbers `Array.from({length: 10}, (_, i) => i + 1)`
(src/index.ts line 766). -/
def seatColumns : List Nat := [1, 2, 3, 4, 5, 6, 7, 8, 9, 10]

/-- The template literal seatId of src/index.ts line 772. -/
def mkSeatId (r : Char) (c : Nat) : String :=
  String.singleton r ++ toString c

/-- The seat document pushed at src/index.ts lines 773-780. -/
def freshSeat (eventId : String) (r : Char) (c : Nat) : Seat :=
  { seatId := mkSeatId r c, row := String.singleton r, column := c,
    price := 200, eventId := eventId, bookings := [] }

/-- All 260 seats the generation loop can emit, in its row-major order. -/
def allFreshSeats (eventId : String) : List Seat :=
  seatRows.flatMap (fun r => seatColumns.map (fun c => freshSeat eventId r c))

/-- The nested generation loop of src/index.ts lines 767-784: row-major
over (row, column), breaking once `totalSeats` seats were pushed. -/
def generatedSeats (eventId : String) (totalSeats : Nat) : List Seat :=
  (allFreshSeats eventId).take totalSeats

/-- `initializeSeats` (src/index.ts lines 750-798): if the event already
holds at least `totalSeats` seats, return; otherwise `deleteMany` the
event's seats and `insertMany` the generated set. -/
def initializeSeats (store : Store) (eventId : String) (totalSeats : Nat) : Store :=
  if totalSeats ≤ countSeats store eventId then store
  else
    { store with seats :=
        store.seats.filter (fun s => s.eventId != eventId) ++
          generatedSeats eventId totalSeats }

/-- One element of the request's `bookings` array for POST /api/seats/book;
a JavaScript-absent or empty string field is modelled as `""`. -/
structure BookingReq where
  seatId : String
  name : String
  email : String
  phone : Option String
  bookingDate : String
deriving DecidableEq, Repr

/-- Outcomes of the booking endpoint towards the caller: the success
JSON, `res.status(status).json({error: msg})`, or no response at all —
the latter happens when the catch block is entered after the commit,
because its `await session.abortTransaction()` itself rejects on the
already-committed transaction, so the handler never reaches the
`res.status(...).json(...)` call. -/
inductive BookResponse where
  | ok (msg : String)
  | err (status : Nat) (msg : String)
  | noResponse
deriving DecidableEq, Repr

/-- Whether a response is the success response. -/
def BookResponse.isSuccess : BookResponse → Bool
  | .ok _ => true
  | .err _ _ => false
  | .noResponse => false

/-- The status mapping of the booking endpoint's catch block
(src/index.ts lines 1477-1485). -/
def bookErrorStatus (msg : String) : Nat :=
  if strIncludes msg "already booked" || strIncludes msg "not found" ||
      strIncludes msg "Registration closed" || strIncludes msg "Duplicate seatIds"
  then 400 else 500

/-- The per-booking field and seatId-shape loop of src/index.ts
lines 1350-1378, returning the first error message it reports. -/
def validateReqFields : List BookingReq → Option String
  | [] => none
  | b :: rest =>
    if b.seatId == "" || b.name == "" || b.email == "" || b.bookingDate == "" then
      some ("seatId, name, email, and bookingDate are required for seat " ++
        (if b.seatId == "" then "unknown" else b.seatId))
    else if !seatIdFormatOk b.seatId then
      some ("Invalid seatId format: " ++ b.seatId)
    else validateReqFields rest

/-- `Seat.find({seatId: {$in: seatIds}, eventId})` (src/index.ts
lines 1409-1412). -/
def findBatchSeats (store : Store) (seatIds : List String) (eventId : String) :
    List Seat :=
  store.seats.filter (fun s => seatIds.contains s.seatId && s.eventId == eventId)

/-- The booking entry pushed at src/index.ts lines 1444-1452. -/
def mkEntry (b : BookingReq) : BookingEntry :=
  { date := b.bookingDate,
    bookedBy := { name := b.name, email := b.email, phone := b.phone },
    status := "booked" }

/-- `seats.find(s => s.seatId === booking.seatId)` followed by a push: the
first seat with the request's seatId gets the entry appended; if none
matches, nothing changes (the `if (seat)` guard). -/
def pushEntry (b : BookingReq) : List Seat → List Seat
  | [] => []
  | s :: rest =>
    if s.seatId == b.seatId then
      { s with bookings := s.bookings ++ [mkEntry b] } :: rest
    else s :: pushEntry b rest

/-- The apply loop of src/index.ts lines 1441-1458 over the in-memory seat
documents read by the transaction. -/
def applyBookings (reqs : List BookingReq) (seats : List Seat) : List Seat :=
  reqs.foldl (fun acc b => pushEntry b acc) seats

/-- `seat.save({session})` for every mutated document followed by
`commitTransaction`: each stored document whose (seatId, eventId) key has
a mutated version is replaced by it. -/
def commitSeats (storeSeats mutated : List Seat) : List Seat :=
  storeSeats.map (fun s =>
    match mutated.find? (fun m => m.seatId == s.seatId && m.eventId == s.eventId) with
    | some m => m
    | none => s)

/-- The transaction body of POST /api/seats/book (src/index.ts
lines 1388-1459) up to computing the mutated seat documents; a thrown
`Error` is `Except.error` of its message. -/
def bookTx (store : Store) (reqs : List BookingReq) (eventId : String)
    (user : Requester) : Except String (List Seat) :=
  match findEventById store eventId with
  | none => .error "No event found for this eventId"
  | some event =>
    if reqs.any (fun b => b.bookingDate != event.date) then
      .error "All booking dates must match event date"
    else if event.registrationClosed && !user.isAdmin then
      .error "Registration for this event is closed"
    else
      let seatIds := reqs.map (fun b => b.seatId)
      if seatIds.dedup.length != seatIds.length then
        .error "Duplicate seatIds provided"
      else
        let seats := findBatchSeats store seatIds event.id
        if seats.length != seatIds.length then
          .error ("Seats not found: " ++ String.intercalate ", "
            (seatIds.filter (fun id => !(seats.map (fun s => s.seatId)).contains id)))
        else
          match seats.find? (fun s => s.bookings.any (fun b => b.date == event.date)) with
          | some s => .error ("Seat " ++ s.seatId ++ " is already booked for this date")
          | none => .ok (applyBookings reqs seats)

/-- POST /api/seats/book (src/index.ts lines 1325-1491).  `today` is the
server's current date string and `notifierOk` whether every
`sendBookingConfirmation` call after the commit succeeds.  A transaction
error aborts with the store unchanged and the catch sends the mapped
error JSON.  A notifier error is thrown after `commitTransaction`, so
the committed seats are not undone, but the catch's first statement
`await session.abortTransaction()` rejects on a committed transaction,
the handler never reaches its `res.status(...).json(...)`, and the
caller gets no response. -/
def book (store : Store) (reqs : List BookingReq) (eventId : String)
    (user : Requester) (today : String) (notifierOk : Bool) :
    Store × BookResponse :=
  if reqs.isEmpty || eventId == "" then
    (store, .err 400 "bookings array and eventId are required")
  else if !isValidObjectId eventId then
    (store, .err 400 "Invalid eventId")
  else
    match validateReqFields reqs with
    | some msg => (store, .err 400 msg)
    | none =>
      if reqs.any (fun b => b.bookingDate == today) then
        (store, .err 400 "Cannot book seats for the current date")
      else
        match bookTx store reqs eventId user with
        | .error msg => (store, .err (bookErrorStatus msg) msg)
        | .ok mutated =>
          let committed : Store := { store with seats := commitSeats store.seats mutated }
          if notifierOk then (committed, .ok "Seats booked successfully")
          else (committed, .noResponse)

/-- A row of the seat-listing responses: `...seat.toObject()` spread plus
the computed `status` and `bookedBy` (src/index.ts lines 1305-1312 and
1606-1613). -/
structure SeatView where
  seatId : String
  row : String
  column : Nat
  price : Nat
  eventId : String
  bookings : List BookingEntry
  status : String
  bookedBy : Option BookedBy
deriving DecidableEq, Repr

/-- The per-seat status computation shared by GET /api/seats and
GET /api/seats/by-ids: the first booking whose date equals the query date
decides `status` and `bookedBy`. -/
def seatWithStatus (date : String) (s : Seat) : SeatView :=
  match s.bookings.find? (fun b => b.date == date) with
  | some b =>
    { seatId := s.seatId, row := s.row, column := s.column, price := s.price,
      eventId := s.eventId, bookings := s.bookings,
      status := "booked", bookedBy := some b.bookedBy }
  | none =>
    { seatId := s.seatId, row := s.row, column := s.column, price := s.price,
      eventId := s.eventId, bookings := s.bookings,
      status := "available", bookedBy := none }

/-- Responses of the two seat-listing endpoints. -/
inductive SeatsResponse where
  | ok (rows : List SeatView)
  | err (status : Nat) (msg : String)
deriving DecidableEq, Repr

/-- GET /api/seats (src/index.ts lines 1271-1323).  When the event's
stored seat count is below its `totalSeats` the handler re-runs
`initializeSeats` and re-reads, so fetching is a mutating operation. -/
def getSeats (store : Store) (date : String) (today : String) :
    Store × SeatsResponse :=
  if date == "" then
    (store, .err 400 "Date is required")
  else if date == today then
    (store, .err 400 "Cannot book seats for the current date")
  else
    match findEventByDate store date with
    | none => (store, .err 400 "No event scheduled for this date")
    | some event =>
      let seats := eventSeats store event.id
      if seats.length < event.totalSeats then
        let store' := initializeSeats store event.id event.totalSeats
        (store', .ok ((eventSeats store' event.id).map (seatWithStatus date)))
      else
        (store, .ok (seats.map (seatWithStatus date)))

/-- GET /api/seats/by-ids (src/index.ts lines 1530-1625); read-only. -/
def getSeatsByIds (store : Store) (seatIdArr : List String) (date : String)
    (today : String) : SeatsResponse :=
  if seatIdArr.isEmpty || date == "" then
    .err 400 "seatIds and date are required"
  else if !(seatIdArr.all seatIdFormatOk) then
    .err 400 ("Invalid seatId format in: " ++ String.intercalate ", " seatIdArr)
  else if date == today then
    .err 400 "Cannot fetch seats for the current date"
  else
    match findEventByDate store date with
    | none => .err 400 ("No event found for date: " ++ date)
    | some event =>
      let seats := findBatchSeats store seatIdArr event.id
      if seats.isEmpty || seats.length != seatIdArr.length then
        .err 404 ("Not all seats found for seatIds: " ++
          String.intercalate ", " seatIdArr ++ " and date: " ++ date)
      else
        .ok (seats.map (seatWithStatus date))

/-- Responses of POST /api/events/:id/end-registration. -/
inductive CloseResponse where
  | ok (msg : String)
  | err (status : Nat) (msg : String)
deriving DecidableEq, Repr

/-- `event.save()` after mutating the document `findById` returned: the
first stored event with the id is replaced. -/
def saveClosedEvent (id : String) : List Event → List Event
  | [] => []
  | e :: rest =>
    if e.id == id then { e with registrationClosed := true } :: rest
    else e :: saveClosedEvent id rest

/-- POST /api/events/:id/end-registration (src/index.ts lines 1188-1269).
Every notification failure after the save is caught and logged
individually, so notifications affect neither the store nor the
response. -/
def closeRegistration (store : Store) (id : String) : Store × CloseResponse :=
  match findEventById store id with
  | none => (store, .err 404 "Event not found")
  | some event =>
    if event.registrationClosed then
      (store, .err 400 "Registration is already closed")
    else
      ({ store with events := saveClosedEvent id store.events },
        .ok "Registration closed successfully")

/-- The unique compound index on (seatId, eventId) declared at
src/index.ts line 138, as a property of a store. -/
def storeKeysNodup (store : Store) : Bool :=
  decide ((store.seats.map (fun s => (s.eventId, s.seatId))).Nodup)

/-- No seat carries two booking entries with the same date value. -/
def storeDatesNodup (store : Store) : Bool :=
  store.seats.all (fun s => decide ((s.bookings.map (fun b => b.date)).Nodup))

theorem pushEntry_length (b : BookingReq) (seats : List Seat) :
    (pushEntry b seats).length = seats.length := by
  induction seats with
  | nil => rfl
  | cons s rest ih =>
    unfold pushEntry
    split <;> simp [ih]

theorem pushEntry_map_seatId (b : BookingReq) (seats : List Seat) :
    (pushEntry b seats).map (fun s => s.seatId) = seats.map (fun s => s.seatId) := by
  induction seats with
  | nil => rfl
  | cons s rest ih =>
    unfold pushEntry
    split <;> simp [ih]

theorem pushEntry_getElem (b : BookingReq) (seats : List Seat)
    (hnd : (seats.map (fun s => s.seatId)).Nodup) (i : Nat) :
    (pushEntry b seats)[i]? = (seats[i]?).map (fun s =>
      if s.seatId == b.seatId then { s with bookings := s.bookings ++ [mkEntry b] }
      else s) := by
  induction seats generalizing i with
  | nil => simp [pushEntry]
  | cons s rest ih =>
    simp only [List.map_cons, List.nodup_cons] at hnd
    unfold pushEntry
    split
    next h =>
      cases i with
      | zero => simp [eq_of_beq h]
      | succ j =>
        simp only [List.getElem?_cons_succ, List.getElem?_map]
        cases hj : rest[j]? with
        | none => rfl
        | some s' =>
          have hmem : s' ∈ rest := List.getElem?_mem hj
          have hne : s'.seatId ≠ b.seatId := by
            intro hcontr
            apply hnd.1
            rw [← hcontr] at h
            rw [eq_of_beq h]
            exact List.mem_map_of_mem (fun s => s.seatId) hmem
          simp [hne]
    next h =>
      cases i with
      | zero =>
        have hne : s.seatId ≠ b.seatId := by simpa using h
        simp [hne]
      | succ j =>
        simp only [List.getElem?_cons_succ]
        exact ih hnd.2 j

theorem applyBookings_map_seatId (reqs : List BookingReq) (seats : List Seat) :
    (applyBookings reqs seats).map (fun s => s.seatId) = seats.map (fun s => s.seatId) := by
  induction reqs generalizing seats with
  | nil => rfl
  | cons r rs ih =>
    unfold applyBookings at ih ⊢
    simp only [List.foldl_cons]
    rw [ih, pushEntry_map_seatId]

theorem applyBookings_getElem (reqs : List BookingReq) (seats : List Seat)
    (hnd : (seats.map (fun s => s.seatId)).Nodup) (i : Nat) :
    (applyBookings reqs seats)[i]? = (seats[i]?).map (fun s =>
      { s with bookings := s.bookings ++
          (reqs.filter (fun r => r.seatId == s.seatId)).map mkEntry }) := by
  induction reqs generalizing seats with
  | nil =>
    cases hi : seats[i]? <;> simp [applyBookings, hi]
  | cons r rs ih =>
    unfold applyBookings at ih ⊢
    simp only [List.foldl_cons]
    have hnd' : ((pushEntry r seats).map (fun s => s.seatId)).Nodup := by
      rw [pushEntry_map_seatId]; exact hnd
    rw [ih (pushEntry r seats) hnd', pushEntry_getElem r seats hnd i]
    cases hi : seats[i]? with
    | none => rfl
    | some s =>
      by_cases hmatch : (s.seatId == r.seatId) = true
      · have heq2 : (r.seatId == s.seatId) = true := by
          rw [eq_of_beq hmatch]; exact beq_self_eq_true _
        simp [eq_of_beq hmatch, List.filter_cons, heq2]
      · have hne : s.seatId ≠ r.seatId := by simpa using hmatch
        have hne' : (r.seatId == s.seatId) = false := by
          rw [beq_eq_false_iff_ne]
          exact fun hc => hne hc.symm
        simp [hne, hne', Ne.symm hne, List.filter_cons]

def seatAfterBatch (reqs : List BookingReq) (s : Seat) : Seat :=
  { s with bookings := s.bookings ++
      (reqs.filter (fun r => r.seatId == s.seatId)).map mkEntry }

theorem mem_findBatchSeats (store : Store) (ids : List String) (eId : String)
    (s : Seat) :
    s ∈ findBatchSeats store ids eId ↔
      s ∈ store.seats ∧ ids.contains s.seatId = true ∧ s.eventId = eId := by
  unfold findBatchSeats
  rw [List.mem_filter]
  simp [Bool.and_eq_true, beq_iff_eq, and_assoc]

theorem findBatchSeats_keys_nodup (store : Store) (ids : List String) (eId : String)
    (hkeys : (store.seats.map (fun s => (s.eventId, s.seatId))).Nodup) :
    ((findBatchSeats store ids eId).map (fun s => (s.eventId, s.seatId))).Nodup :=
  ((List.filter_sublist store.seats).map _).nodup hkeys

theorem findBatchSeats_ids_nodup (store : Store) (ids : List String) (eId : String)
    (hkeys : (store.seats.map (fun s => (s.eventId, s.seatId))).Nodup) :
    ((findBatchSeats store ids eId).map (fun s => s.seatId)).Nodup := by
  have hk := findBatchSeats_keys_nodup store ids eId hkeys
  rw [List.Nodup, List.pairwise_map] at hk ⊢
  refine hk.imp_of_mem ?_
  intro a b ha hb hne
  have hea : a.eventId = eId := ((mem_findBatchSeats store ids eId a).mp ha).2.2
  have heb : b.eventId = eId := ((mem_findBatchSeats store ids eId b).mp hb).2.2
  intro hcontr
  exact hne (by rw [hea, heb, hcontr])

theorem applyBookings_eq_map (reqs : List BookingReq) (seats : List Seat)
    (hnd : (seats.map (fun s => s.seatId)).Nodup) :
    applyBookings reqs seats = seats.map (seatAfterBatch reqs) := by
  apply List.ext_getElem?
  intro i
  rw [applyBookings_getElem reqs seats hnd i, List.getElem?_map]
  rfl

theorem seatAfterBatch_seatId (reqs : List BookingReq) (s : Seat) :
    (seatAfterBatch reqs s).seatId = s.seatId := rfl

theorem seatAfterBatch_eventId (reqs : List BookingReq) (s : Seat) :
    (seatAfterBatch reqs s).eventId = s.eventId := rfl

theorem commitSeats_applyBookings (store : Store) (reqs : List BookingReq)
    (eId : String)
    (hkeys : (store.seats.map (fun s => (s.eventId, s.seatId))).Nodup) :
    commitSeats store.seats
        (applyBookings reqs (findBatchSeats store (reqs.map (fun b => b.seatId)) eId)) =
      store.seats.map (fun s =>
        if (reqs.map (fun b => b.seatId)).contains s.seatId && s.eventId == eId then
          seatAfterBatch reqs s
        else s) := by
  have hnd : ((findBatchSeats store (reqs.map (fun b => b.seatId)) eId).map
      (fun s => s.seatId)).Nodup :=
    findBatchSeats_ids_nodup store (reqs.map (fun b => b.seatId)) eId hkeys
  rw [applyBookings_eq_map reqs _ hnd]
  unfold commitSeats
  apply List.map_congr_left
  intro s hs
  have hsub : (findBatchSeats store (reqs.map (fun b => b.seatId)) eId).Sublist store.seats :=
    List.filter_sublist store.seats
  by_cases hp : ((reqs.map (fun b => b.seatId)).contains s.seatId && s.eventId == eId) = true
  · have hsf : s ∈ findBatchSeats store (reqs.map (fun b => b.seatId)) eId := by
      rw [mem_findBatchSeats]
      rcases Bool.and_eq_true_iff.mp hp with ⟨h1, h2⟩
      exact ⟨hs, h1, eq_of_beq h2⟩
    have hmem : seatAfterBatch reqs s ∈
        (findBatchSeats store (reqs.map (fun b => b.seatId)) eId).map (seatAfterBatch reqs) :=
      List.mem_map_of_mem (seatAfterBatch reqs) hsf
    have hpred : ((seatAfterBatch reqs s).seatId == s.seatId &&
        (seatAfterBatch reqs s).eventId == s.eventId) = true := by
      rw [seatAfterBatch_seatId, seatAfterBatch_eventId]
      simp
    have hsome : (((findBatchSeats store (reqs.map (fun b => b.seatId)) eId).map
        (seatAfterBatch reqs)).find?
        (fun m => m.seatId == s.seatId && m.eventId == s.eventId)).isSome := by
      rw [List.find?_isSome]
      exact ⟨seatAfterBatch reqs s, hmem, hpred⟩
    obtain ⟨m, hm⟩ := Option.isSome_iff_exists.mp hsome
    have hmmem := List.mem_of_find?_eq_some hm
    have hmpred := List.find?_some hm
    obtain ⟨s₀, hs₀f, hs₀⟩ := List.mem_map.mp hmmem
    have hkey : s₀.eventId = s.eventId ∧ s₀.seatId = s.seatId := by
      rcases Bool.and_eq_true_iff.mp hmpred with ⟨k1, k2⟩
      rw [← hs₀, seatAfterBatch_seatId] at k1
      rw [← hs₀, seatAfterBatch_eventId] at k2
      exact ⟨eq_of_beq k2, eq_of_beq k1⟩
    have hs₀s : s₀ = s :=
      List.inj_on_of_nodup_map hkeys (hsub.subset hs₀f) hs
        (by rw [hkey.1, hkey.2])
    rw [if_pos hp, hm]
    show m = seatAfterBatch reqs s
    rw [← hs₀, hs₀s]
  · have hnone : (((findBatchSeats store (reqs.map (fun b => b.seatId)) eId).map
        (seatAfterBatch reqs)).find?
        (fun m => m.seatId == s.seatId && m.eventId == s.eventId)) = none := by
      rw [List.find?_eq_none]
      intro m hmmem hmpred
      obtain ⟨s₀, hs₀f, hs₀⟩ := List.mem_map.mp hmmem
      have hkey : s₀.eventId = s.eventId ∧ s₀.seatId = s.seatId := by
        rcases Bool.and_eq_true_iff.mp hmpred with ⟨k1, k2⟩
        rw [← hs₀, seatAfterBatch_seatId] at k1
        rw [← hs₀, seatAfterBatch_eventId] at k2
        exact ⟨eq_of_beq k2, eq_of_beq k1⟩
      have hs₀s : s₀ = s :=
        List.inj_on_of_nodup_map hkeys (hsub.subset hs₀f) hs
          (by rw [hkey.1, hkey.2])
      rw [hs₀s, mem_findBatchSeats] at hs₀f
      apply hp
      rw [Bool.and_eq_true_iff]
      exact ⟨hs₀f.2.1, beq_iff_eq.mpr hs₀f.2.2⟩
    rw [hnone, if_neg hp]

theorem book_err_unchanged (store : Store) (reqs : List BookingReq)
    (eventId : String) (user : Requester) (today : String)
    (store' : Store) (status : Nat) (msg : String)
    (h : book store reqs eventId user today true = (store', .err status msg)) :
    store' = store := by
  unfold book at h
  repeat' split at h
  all_goals first
    | (injection h with h1 h2; exact h1.symm)
    | simp_all

theorem book_ok_destruct (store : Store) (reqs : List BookingReq)
    (eventId : String) (user : Requester) (today : String) (n : Bool)
    (store' : Store) (msg : String)
    (h : book store reqs eventId user today n = (store', .ok msg)) :
    (reqs.isEmpty || eventId == "") = false ∧
    isValidObjectId eventId = true ∧
    validateReqFields reqs = none ∧
    (reqs.any fun b => b.bookingDate == today) = false ∧
    n = true ∧
    ∃ mutated, bookTx store reqs eventId user = .ok mutated ∧
      store' = { store with seats := commitSeats store.seats mutated } ∧
      msg = "Seats booked successfully" := by
  unfold book at h
  repeat' split at h
  all_goals simp_all

theorem book_build (store : Store) (reqs : List BookingReq)
    (eventId : String) (user : Requester) (today : String) (n : Bool)
    (mutated : List Seat)
    (h1 : (reqs.isEmpty || eventId == "") = false)
    (h2 : isValidObjectId eventId = true)
    (h3 : validateReqFields reqs = none)
    (h4 : (reqs.any fun b => b.bookingDate == today) = false)
    (h5 : bookTx store reqs eventId user = .ok mutated) :
    book store reqs eventId user today n =
      ({ store with seats := commitSeats store.seats mutated },
        if n then .ok "Seats booked successfully" else .noResponse) := by
  unfold book
  rw [h1, h2, h3, h4, h5]
  cases n <;> simp

theorem book_txerr (store : Store) (reqs : List BookingReq)
    (eventId : String) (user : Requester) (today : String) (n : Bool)
    (msg : String)
    (h1 : (reqs.isEmpty || eventId == "") = false)
    (h2 : isValidObjectId eventId = true)
    (h3 : validateReqFields reqs = none)
    (h4 : (reqs.any fun b => b.bookingDate == today) = false)
    (h5 : bookTx store reqs eventId user = .error msg) :
    book store reqs eventId user today n =
      (store, .err (bookErrorStatus msg) msg) := by
  unfold book
  rw [h1, h2, h3, h4, h5]
  simp

theorem bookTx_ok_destruct (store : Store) (reqs : List BookingReq)
    (eventId : String) (user : Requester) (mutated : List Seat)
    (h : bookTx store reqs eventId user = .ok mutated) :
    ∃ event, findEventById store eventId = some event ∧
      (∀ b ∈ reqs, b.bookingDate = event.date) ∧
      (event.registrationClosed = true → user.isAdmin = true) ∧
      (reqs.map (fun b => b.seatId)).dedup.length = reqs.length ∧
      (findBatchSeats store (reqs.map (fun b => b.seatId)) event.id).length = reqs.length ∧
      (∀ s ∈ findBatchSeats store (reqs.map (fun b => b.seatId)) event.id,
        ∀ bk ∈ s.bookings, ¬bk.date = event.date) ∧
      mutated = applyBookings reqs (findBatchSeats store (reqs.map (fun b => b.seatId)) event.id) := by
  unfold bookTx at h
  simp only [] at h
  repeat' split at h
  all_goals simp_all
  all_goals assumption

theorem bookTx_build (store : Store) (reqs : List BookingReq)
    (eventId : String) (user : Requester) (event : Event)
    (hfind : findEventById store eventId = some event)
    (hdate : ∀ b ∈ reqs, b.bookingDate = event.date)
    (hreg : event.registrationClosed = true → user.isAdmin = true)
    (hdup : (reqs.map (fun b => b.seatId)).dedup.length = reqs.length)
    (hlen : (findBatchSeats store (reqs.map (fun b => b.seatId)) event.id).length = reqs.length)
    (hbooked : ∀ s ∈ findBatchSeats store (reqs.map (fun b => b.seatId)) event.id,
      ∀ bk ∈ s.bookings, ¬bk.date = event.date) :
    bookTx store reqs eventId user =
      .ok (applyBookings reqs (findBatchSeats store (reqs.map (fun b => b.seatId)) event.id)) := by
  have hdate' : (reqs.any fun b => b.bookingDate != event.date) = false := by
    rw [List.any_eq_false]
    intro b hb
    simp [hdate b hb]
  have hreg' : (event.registrationClosed && !user.isAdmin) = false := by
    cases hc : event.registrationClosed with
    | false => simp
    | true => simp [hreg hc]
  have hfound : ((findBatchSeats store (reqs.map (fun b => b.seatId)) event.id).find?
      (fun s => s.bookings.any (fun b => b.date == event.date))) = none := by
    rw [List.find?_eq_none]
    intro s hs
    rw [Bool.not_eq_true, List.any_eq_false]
    intro bk hbk
    simp [hbooked s hs bk hbk]
  unfold bookTx
  rw [hfind]
  simp only [hdate', hreg', Bool.false_eq_true, if_false]
  have hmaplen : (reqs.map (fun b => b.seatId)).length = reqs.length := List.length_map _ _
  have hdup' : ((reqs.map (fun b => b.seatId)).dedup.length !=
      (reqs.map (fun b => b.seatId)).length) = false := by
    rw [bne_eq_false_iff_eq, hmaplen, hdup]
  have hlen' : ((findBatchSeats store (reqs.map (fun b => b.seatId)) event.id).length !=
      (reqs.map (fun b => b.seatId)).length) = false := by
    rw [bne_eq_false_iff_eq, hmaplen, hlen]
  simp only [hdup', hlen', Bool.false_eq_true, if_false, hfound]

theorem bookTx_closed_nonadmin (store : Store) (reqs : List BookingReq)
    (eventId : String) (user : Requester) (event : Event)
    (hfind : findEventById store eventId = some event)
    (hclosed : event.registrationClosed = true)
    (hadmin : user.isAdmin = false) :
    bookTx store reqs eventId user = .error "All booking dates must match event date" ∨
    bookTx store reqs eventId user = .error "Registration for this event is closed" := by
  unfold bookTx
  rw [hfind]
  simp only []
  by_cases hdate : (reqs.any fun b => b.bookingDate != event.date) = true
  · left
    simp only [hdate, if_true]
  · right
    have hdate' : (reqs.any fun b => b.bookingDate != event.date) = false := by
      simpa using hdate
    simp only [hdate', Bool.false_eq_true, if_false, hclosed, hadmin,
      Bool.not_false, Bool.and_self, if_true]

theorem dedup_length_iff {α : Type} [DecidableEq α] (l : List α) :
    l.dedup.length = l.length ↔ l.Nodup := by
  constructor
  · intro h
    have hd := (List.dedup_sublist l).eq_of_length h
    rw [← hd]
    exact List.nodup_dedup l
  · intro h
    rw [List.dedup_eq_self.mpr h]

theorem filter_eq_find_toList {α β : Type} [DecidableEq β] (f : α → β) (y : β)
    (l : List α) (h : (l.map f).Nodup) :
    l.filter (fun x => f x == y) = (l.find? (fun x => f x == y)).toList := by
  induction l with
  | nil => rfl
  | cons a rest ih =>
    simp only [List.map_cons, List.nodup_cons] at h
    by_cases hy : (f a == y) = true
    · rw [List.filter_cons_of_pos (p := fun x => f x == y) hy,
        List.find?_cons_of_pos (p := fun x => f x == y) rest hy]
      have hnil : rest.filter (fun x => f x == y) = [] := by
        rw [List.filter_eq_nil_iff]
        intro x hx hfx
        apply h.1
        have hax : f a = f x := by rw [eq_of_beq hy, eq_of_beq hfx]
        rw [hax]
        exact List.mem_map_of_mem f hx
      rw [hnil]
      rfl
    · rw [List.filter_cons_of_neg (p := fun x => f x == y) hy,
        List.find?_cons_of_neg (p := fun x => f x == y) rest hy]
      exact ih h.2

/-- The per-seat effect of a committed booking batch: the first request
with the seat's seatId appends its entry when the seat belongs to the
event; every other seat is untouched. -/
def seatAfterBook (reqs : List BookingReq) (eId : String) (s : Seat) : Seat :=
  match reqs.find? (fun r => r.seatId == s.seatId) with
  | some b =>
    if s.eventId == eId then
      { s with bookings := s.bookings ++
          [{ date := b.bookingDate,
             bookedBy := { name := b.name, email := b.email, phone := b.phone },
             status := "booked" }] }
    else s
  | none => s

theorem seatAfterBatch_eq_seatAfterBook (reqs : List BookingReq) (eId : String)
    (hnd : (reqs.map (fun b => b.seatId)).Nodup) (s : Seat) :
    (if (reqs.map (fun b => b.seatId)).contains s.seatId && s.eventId == eId then
      seatAfterBatch reqs s else s) = seatAfterBook reqs eId s := by
  unfold seatAfterBook
  cases hf : reqs.find? (fun r => r.seatId == s.seatId) with
  | none =>
    rw [List.find?_eq_none] at hf
    have hcon : ((reqs.map (fun b => b.seatId)).contains s.seatId) = false := by
      rw [← Bool.not_eq_true, List.contains_iff_exists_mem_beq]
      rintro ⟨y, hy, hbeq⟩
      obtain ⟨r, hr, rfl⟩ := List.mem_map.mp hy
      exact hf r hr (beq_iff_eq.mpr (eq_of_beq hbeq).symm)
    rw [hcon]
    simp
  | some b =>
    have hb := List.find?_some hf
    have hbm := List.mem_of_find?_eq_some hf
    have hcon : ((reqs.map (fun b => b.seatId)).contains s.seatId) = true := by
      rw [List.contains_iff_exists_mem_beq]
      exact ⟨b.seatId, List.mem_map_of_mem _ hbm, beq_iff_eq.mpr (eq_of_beq hb).symm⟩
    have hflt : reqs.filter (fun r => r.seatId == s.seatId) = [b] := by
      rw [filter_eq_find_toList (fun b => b.seatId) s.seatId reqs hnd, hf]
      rfl
    by_cases he : (s.eventId == eId) = true
    · simp only [hcon, he, Bool.and_self, if_true]
      unfold seatAfterBatch
      rw [hflt]
      rfl
    · have he' : (s.eventId == eId) = false := by simpa using he
      simp [hcon, he']

theorem book_ok_seats (store : Store) (reqs : List BookingReq)
    (eventId : String) (user : Requester) (today : String) (n : Bool)
    (store' : Store) (msg : String) (e : Event)
    (hkeys : storeKeysNodup store = true)
    (hfind : findEventById store eventId = some e)
    (h : book store reqs eventId user today n = (store', .ok msg)) :
    store'.events = store.events ∧
    store'.seats = store.seats.map (seatAfterBook reqs e.id) := by
  obtain ⟨h1, h2, h3, h4, hn, mutated, htx, hstore, hmsg⟩ :=
    book_ok_destruct store reqs eventId user today n store' msg h
  obtain ⟨e', hfind', hdate, hreg, hdup, hlen, hbooked, hmut⟩ :=
    bookTx_ok_destruct store reqs eventId user mutated htx
  rw [hfind] at hfind'
  injection hfind' with he'
  subst he'
  have hkeys' : (store.seats.map (fun s => (s.eventId, s.seatId))).Nodup :=
    of_decide_eq_true hkeys
  have hids : (reqs.map (fun b => b.seatId)).Nodup := by
    rw [← dedup_length_iff, List.length_map]
    exact hdup
  subst hmut
  subst hstore
  refine ⟨rfl, ?_⟩
  show commitSeats store.seats _ = _
  rw [commitSeats_applyBookings store reqs e.id hkeys']
  apply List.map_congr_left
  intro s hs
  exact seatAfterBatch_eq_seatAfterBook reqs e.id hids s

theorem find?_map_self {α β : Type} [DecidableEq β] (f : α → β) (l : List α)
    (h : (l.map f).Nodup) (a : α) (ha : a ∈ l) :
    l.find? (fun x => f x == f a) = some a := by
  induction l with
  | nil => cases ha
  | cons x rest ih =>
    simp only [List.map_cons, List.nodup_cons] at h
    rcases List.mem_cons.mp ha with rfl | hmem
    · rw [List.find?_cons_of_pos (p := fun y => f y == f a) rest (by simp)]
    · have hne : ¬(f x == f a) = true := by
        intro hc
        exact h.1 ((eq_of_beq hc) ▸ List.mem_map_of_mem f hmem)
      rw [List.find?_cons_of_neg (p := fun y => f y == f a) rest hne]
      exact ih h.2 hmem

theorem seatAfterBook_eventId (reqs : List BookingReq) (eId : String) (s : Seat) :
    (seatAfterBook reqs eId s).eventId = s.eventId := by
  unfold seatAfterBook
  split
  · split <;> rfl
  · rfl

theorem seatAfterBook_seatId (reqs : List BookingReq) (eId : String) (s : Seat) :
    (seatAfterBook reqs eId s).seatId = s.seatId := by
  unfold seatAfterBook
  split
  · split <;> rfl
  · rfl

theorem findEventById_congr (store store' : Store) (id : String)
    (h : store'.events = store.events) :
    findEventById store' id = findEventById store id := by
  unfold findEventById
  rw [h]

theorem contains_of_mem {l : List String} {a : String} (h : a ∈ l) :
    l.contains a = true := by
  rw [List.contains_iff_exists_mem_beq]
  exact ⟨a, h, beq_self_eq_true a⟩

theorem mem_of_contains {l : List String} {a : String} (h : l.contains a = true) :
    a ∈ l := by
  rw [List.contains_iff_exists_mem_beq] at h
  obtain ⟨y, hy, hbeq⟩ := h
  rw [eq_of_beq hbeq]
  exact hy

theorem batch_seat_exists (store : Store) (reqs : List BookingReq) (eId : String)
    (hkeys : (store.seats.map (fun s => (s.eventId, s.seatId))).Nodup)
    (hlen : (findBatchSeats store (reqs.map (fun b => b.seatId)) eId).length = reqs.length)
    (b : BookingReq) (hb : b ∈ reqs) :
    ∃ s ∈ findBatchSeats store (reqs.map (fun b => b.seatId)) eId,
      s.seatId = b.seatId := by
  have h1 : ((findBatchSeats store (reqs.map (fun b => b.seatId)) eId).map
      (fun s => s.seatId)).Nodup :=
    findBatchSeats_ids_nodup store (reqs.map (fun b => b.seatId)) eId hkeys
  have h2 : (findBatchSeats store (reqs.map (fun b => b.seatId)) eId).map
      (fun s => s.seatId) ⊆ reqs.map (fun b => b.seatId) := by
    intro y hy
    obtain ⟨s, hs, rfl⟩ := List.mem_map.mp hy
    exact mem_of_contains ((mem_findBatchSeats store _ eId s).mp hs).2.1
  have h3 := h1.subperm h2
  have h4 : (reqs.map (fun b => b.seatId)).length ≤
      ((findBatchSeats store (reqs.map (fun b => b.seatId)) eId).map
        (fun s => s.seatId)).length := by
    rw [List.length_map, List.length_map, hlen]
  have h5 := h3.perm_of_length_le h4
  have h6 : b.seatId ∈ (findBatchSeats store (reqs.map (fun b => b.seatId)) eId).map
      (fun s => s.seatId) :=
    h5.mem_iff.mpr (List.mem_map_of_mem _ hb)
  obtain ⟨s, hs, heq⟩ := List.mem_map.mp h6
  exact ⟨s, hs, heq⟩

theorem storeDatesNodup_iff (store : Store) :
    storeDatesNodup store = true ↔
      ∀ s ∈ store.seats, (s.bookings.map (fun b => b.date)).Nodup := by
  unfold storeDatesNodup
  rw [List.all_eq_true]
  constructor
  · intro h s hs
    exact of_decide_eq_true (h s hs)
  · intro h s hs
    exact decide_eq_true (h s hs)

theorem seatAfterBook_of_found (reqs : List BookingReq) (eId : String)
    (s : Seat) (b : BookingReq)
    (hf : reqs.find? (fun r => r.seatId == s.seatId) = some b)
    (he : s.eventId = eId) :
    seatAfterBook reqs eId s =
      { s with bookings := s.bookings ++ [mkEntry b] } := by
  unfold seatAfterBook
  rw [hf]
  simp [beq_iff_eq.mpr he, mkEntry]

theorem seatAfterBook_of_none (reqs : List BookingReq) (eId : String) (s : Seat)
    (hf : reqs.find? (fun r => r.seatId == s.seatId) = none) :
    seatAfterBook reqs eId s = s := by
  unfold seatAfterBook
  rw [hf]

theorem seatAfterBook_of_other_event (reqs : List BookingReq) (eId : String)
    (s : Seat) (b : BookingReq)
    (hf : reqs.find? (fun r => r.seatId == s.seatId) = some b)
    (he : s.eventId ≠ eId) :
    seatAfterBook reqs eId s = s := by
  unfold seatAfterBook
  rw [hf]
  have he' : (s.eventId == eId) = false := by
    rw [beq_eq_false_iff_ne]
    exact he
  simp [he']

theorem book_ok_entry_present (store : Store) (reqs : List BookingReq)
    (eventId : String) (user : Requester) (today : String) (n : Bool)
    (store₁ : Store) (msg : String) (e : Event) (b : BookingReq)
    (hkeys : storeKeysNodup store = true)
    (hfind : findEventById store eventId = some e)
    (h : book store reqs eventId user today n = (store₁, .ok msg))
    (hb : b ∈ reqs) :
    ∃ s ∈ store₁.seats, s.eventId = e.id ∧ s.seatId = b.seatId ∧
      ∃ bk ∈ s.bookings, bk.date = e.date := by
  obtain ⟨h1, h2, h3, h4, hn, mutated, htx, hstore, hmsg⟩ :=
    book_ok_destruct store reqs eventId user today n store₁ msg h
  obtain ⟨e', hfind', hdate, hreg, hdup, hlen, hbooked, hmut⟩ :=
    bookTx_ok_destruct store reqs eventId user mutated htx
  rw [hfind] at hfind'
  injection hfind' with he'
  subst he'
  have hkeys' : (store.seats.map (fun s => (s.eventId, s.seatId))).Nodup :=
    of_decide_eq_true hkeys
  have hids : (reqs.map (fun b => b.seatId)).Nodup := by
    rw [← dedup_length_iff, List.length_map]
    exact hdup
  obtain ⟨s, hsflt, hsid⟩ := batch_seat_exists store reqs e.id hkeys' hlen b hb
  obtain ⟨hsmem, hscon, hsev⟩ := (mem_findBatchSeats store _ e.id s).mp hsflt
  have hseats : store₁.seats = store.seats.map (seatAfterBook reqs e.id) :=
    (book_ok_seats store reqs eventId user today n store₁ msg e hkeys hfind h).2
  have hfound : reqs.find? (fun r => r.seatId == s.seatId) = some b := by
    rw [hsid]
    exact find?_map_self (fun r => r.seatId) reqs hids b hb
  refine ⟨seatAfterBook reqs e.id s, ?_, ?_, ?_, ?_⟩
  · rw [hseats]
    exact List.mem_map_of_mem _ hsmem
  · rw [seatAfterBook_eventId]
    exact hsev
  · rw [seatAfterBook_seatId]
    exact hsid
  · rw [seatAfterBook_of_found reqs e.id s b hfound hsev]
    refine ⟨mkEntry b, List.mem_append_right _ (List.mem_singleton_self _), ?_⟩
    exact hdate b hb

theorem no_double_booking_main (store store₁ : Store)
    (reqs₁ reqs₂ : List BookingReq) (eventId : String)
    (u₁ u₂ : Requester) (t₁ t₂ : String) (n₁ n₂ : Bool)
    (msg : String) (e : Event) (b₁ b₂ : BookingReq)
    (hkeys : storeKeysNodup store = true)
    (hdates : storeDatesNodup store = true)
    (hfind : findEventById store eventId = some e)
    (h₁ : book store reqs₁ eventId u₁ t₁ n₁ = (store₁, .ok msg))
    (hb₁ : b₁ ∈ reqs₁) (hb₂ : b₂ ∈ reqs₂)
    (hsame : b₂.seatId = b₁.seatId) :
    (book store₁ reqs₂ eventId u₂ t₂ n₂).2.isSuccess = false ∧
    storeDatesNodup store₁ = true := by
  obtain ⟨s', hs'mem, hs'ev, hs'id, bk, hbkmem, hbkdate⟩ :=
    book_ok_entry_present store reqs₁ eventId u₁ t₁ n₁ store₁ msg e b₁
      hkeys hfind h₁ hb₁
  have hev : store₁.events = store.events :=
    (book_ok_seats store reqs₁ eventId u₁ t₁ n₁ store₁ msg e hkeys hfind h₁).1
  have hseats : store₁.seats = store.seats.map (seatAfterBook reqs₁ e.id) :=
    (book_ok_seats store reqs₁ eventId u₁ t₁ n₁ store₁ msg e hkeys hfind h₁).2
  constructor
  · cases hres : (book store₁ reqs₂ eventId u₂ t₂ n₂).2 with
    | err st m => rfl
    | noResponse => rfl
    | ok m =>
      exfalso
      have heq : book store₁ reqs₂ eventId u₂ t₂ n₂ =
          ((book store₁ reqs₂ eventId u₂ t₂ n₂).1, .ok m) := by
        rw [← hres]
      obtain ⟨g1, g2, g3, g4, gn, mut₂, htx₂, gstore, gmsg⟩ :=
        book_ok_destruct store₁ reqs₂ eventId u₂ t₂ n₂ _ m heq
      obtain ⟨e₂, hfind₂, hdate₂, hreg₂, hdup₂, hlen₂, hbooked₂, hmut₂⟩ :=
        bookTx_ok_destruct store₁ reqs₂ eventId u₂ mut₂ htx₂
      rw [findEventById_congr store store₁ eventId hev, hfind] at hfind₂
      injection hfind₂ with he₂
      subst he₂
      have hs'flt : s' ∈ findBatchSeats store₁ (reqs₂.map (fun b => b.seatId)) e.id := by
        rw [mem_findBatchSeats]
        refine ⟨hs'mem, ?_, hs'ev⟩
        apply contains_of_mem
        rw [hs'id, ← hsame]
        exact List.mem_map_of_mem _ hb₂
      exact hbooked₂ s' hs'flt bk hbkmem hbkdate
  · obtain ⟨h1, h2, h3, h4, hn, mutated, htx, hstore, hmsg⟩ :=
      book_ok_destruct store reqs₁ eventId u₁ t₁ n₁ store₁ msg h₁
    obtain ⟨e', hfind', hdate₁, hreg₁, hdup₁, hlen₁, hbooked₁, hmut₁⟩ :=
      bookTx_ok_destruct store reqs₁ eventId u₁ mutated htx
    rw [hfind] at hfind'
    injection hfind' with he'
    subst he'
    have hdatesP := (storeDatesNodup_iff store).mp hdates
    rw [storeDatesNodup_iff]
    intro s₁ hs₁
    rw [hseats] at hs₁
    obtain ⟨s, hs, rfl⟩ := List.mem_map.mp hs₁
    cases hf : reqs₁.find? (fun r => r.seatId == s.seatId) with
    | none =>
      rw [seatAfterBook_of_none reqs₁ e.id s hf]
      exact hdatesP s hs
    | some b =>
      by_cases he : s.eventId = e.id
      · rw [seatAfterBook_of_found reqs₁ e.id s b hf he]
        have hbmem : b ∈ reqs₁ := List.mem_of_find?_eq_some hf
        have hbid0 := @List.find?_some BookingReq (fun r => r.seatId == s.seatId) b reqs₁ hf
        have hbid : b.seatId = s.seatId := eq_of_beq hbid0
        have hsflt : s ∈ findBatchSeats store (reqs₁.map (fun b => b.seatId)) e.id := by
          rw [mem_findBatchSeats]
          refine ⟨hs, ?_, he⟩
          apply contains_of_mem
          rw [← hbid]
          exact List.mem_map_of_mem _ hbmem
        have hnewdate : (mkEntry b).date = e.date := hdate₁ b hbmem
        simp only [List.map_append, List.map_cons, List.map_nil]
        rw [List.nodup_append]
        refine ⟨hdatesP s hs, by simp, ?_⟩
        intro d hd hd'
        rw [List.mem_singleton.mp hd'] at hd
        obtain ⟨bk₀, hbk₀, hbk₀d⟩ := List.mem_map.mp hd
        apply hbooked₁ s hsflt bk₀ hbk₀
        rw [hbk₀d]
        exact hnewdate
      · rw [seatAfterBook_of_other_event reqs₁ e.id s b hf he]
        exact hdatesP s hs

def sampleEventId : String := "aaaaaaaaaaaaaaaaaaaaaaaa"

def sampleEvent : Event :=
  { id := sampleEventId, name := "Play", date := "2025-06-01",
    totalSeats := 2, registrationClosed := false }

def sampleSeats : List Seat :=
  [freshSeat sampleEventId 'A' 1, freshSeat sampleEventId 'A' 2]

def sampleStore : Store := { events := [sampleEvent], seats := sampleSeats }

def sampleReq : BookingReq :=
  { seatId := "A1", name := "Asha", email := "a@x.com", phone := none,
    bookingDate := "2025-06-01" }

def sampleReq2 : BookingReq :=
  { seatId := "A1", name := "Ben", email := "b@x.com", phone := some "1234567890",
    bookingDate := "2025-06-01" }

def sampleReqA2 : BookingReq :=
  { seatId := "A2", name := "Cara", email := "c@x.com", phone := none,
    bookingDate := "2025-06-01" }

def sampleUser : Requester := { isAdmin := false }

def sampleDay : String := "2025-01-01"

def sampleStoreBooked : Store :=
  (book sampleStore [sampleReq] sampleEventId sampleUser sampleDay true).1

def sampleStoreClosed : Store :=
  { events := [{ sampleEvent with registrationClosed := true }],
    seats := sampleSeats }

/-- C1: after a successful `book` whose batch contains request `b₁` for a
seat at `b₁.bookingDate`, any later `book` against the same event whose
batch contains a request `b₂` for the same seatId and date fails — whatever
the rest of the second batch, the requester's admin flag, the server date
or the notifier outcome — and afterwards no seat carries two BookingEntries
with the same date value. -/
theorem rebooking_same_seat_and_date_fails (store store₁ : Store)
    (reqs₁ reqs₂ : List BookingReq) (eventId : String)
    (u₁ u₂ : Requester) (t₁ t₂ : String) (n₁ n₂ : Bool)
    (msg : String) (e : Event) (b₁ b₂ : BookingReq)
    (hkeys : storeKeysNodup store = true)
    (hdates : storeDatesNodup store = true)
    (hfind : findEventById store eventId = some e)
    (h₁ : book store reqs₁ eventId u₁ t₁ n₁ = (store₁, .ok msg))
    (hb₁ : b₁ ∈ reqs₁) (hb₂ : b₂ ∈ reqs₂)
    (hsame : b₂.seatId = b₁.seatId)
    (hdate₂ : b₂.bookingDate = b₁.bookingDate) :
    (book store₁ reqs₂ eventId u₂ t₂ n₂).2.isSuccess = false ∧
    storeDatesNodup store₁ = true :=
  no_double_booking_main store store₁ reqs₁ reqs₂ eventId u₁ u₂ t₁ t₂ n₁ n₂
    msg e b₁ b₂ hkeys hdates hfind h₁ hb₁ hb₂ hsame

theorem rebooking_same_seat_and_date_fails_witness :
    (storeKeysNodup sampleStore = true ∧ storeDatesNodup sampleStore = true ∧
      book sampleStore [sampleReq] sampleEventId sampleUser sampleDay true =
        (sampleStoreBooked, .ok "Seats booked successfully")) ∧
    ((book sampleStoreBooked [sampleReq2] sampleEventId ⟨true⟩ "2025-01-02" true).2.isSuccess = false ∧
      storeDatesNodup sampleStoreBooked = true) :=
  ⟨⟨by decide, by decide, by decide⟩,
    rebooking_same_seat_and_date_fails sampleStore sampleStoreBooked
      [sampleReq] [sampleReq2] sampleEventId sampleUser ⟨true⟩ sampleDay
      "2025-01-02" true true "Seats booked successfully" sampleEvent
      sampleReq sampleReq2 (by decide) (by decide) (by decide) (by decide)
      (by decide) (by decide) (by decide) (by decide)⟩

/-- C2: `book` is all-or-nothing — when the call reports an error while
the notifier would succeed (so the error is a validation failure, not a
notification failure), the stored state is exactly the state before the
call; no seat in the batch gains a BookingEntry. -/
theorem book_validation_failure_is_all_or_nothing (store : Store)
    (reqs : List BookingReq) (eventId : String) (user : Requester)
    (today : String) (store' : Store) (status : Nat) (msg : String)
    (h : book store reqs eventId user today true = (store', .err status msg)) :
    store' = store :=
  book_err_unchanged store reqs eventId user today store' status msg h

theorem book_validation_failure_is_all_or_nothing_witness :
    book sampleStoreBooked [sampleReqA2, sampleReq2] sampleEventId sampleUser
        sampleDay true =
      (sampleStoreBooked, .err 400 "Seat A1 is already booked for this date") ∧
    sampleStoreBooked = sampleStoreBooked :=
  ⟨by decide,
    book_validation_failure_is_all_or_nothing sampleStoreBooked
      [sampleReqA2, sampleReq2] sampleEventId sampleUser sampleDay
      sampleStoreBooked 400 "Seat A1 is already booked for this date" (by decide)⟩

/-- C4 counterexample: on an otherwise-successful batch with the notifier
failing, the bookings are durably recorded (the store changes exactly as
in the successful run) yet the caller never receives the success
response: the catch is entered after the commit, its
`session.abortTransaction()` rejects on the committed transaction, and
the handler sends nothing — so booking success as reported to the caller
is not independent of notification success, refuting the claim on this
input. -/
theorem notifier_failure_reported_counterexample :
    (book sampleStore [sampleReq] sampleEventId sampleUser sampleDay true).2 =
      .ok "Seats booked successfully" ∧
    (book sampleStore [sampleReq] sampleEventId sampleUser sampleDay false).2 =
      .noResponse ∧
    (book sampleStore [sampleReq] sampleEventId sampleUser sampleDay false).2 ≠
      (book sampleStore [sampleReq] sampleEventId sampleUser sampleDay true).2 ∧
    (book sampleStore [sampleReq] sampleEventId sampleUser sampleDay false).1 =
      sampleStoreBooked ∧
    (book sampleStore [sampleReq] sampleEventId sampleUser sampleDay false).1 ≠
      sampleStore := by decide

/-- C4 (amended): a notification failure after the commit does not undo
the recorded bookings — the stored state is exactly the state the
successful run produces — but the call then sends no response at all to
the caller: the catch's `abortTransaction` on the already-committed
transaction itself rejects before the error JSON would be sent, so the
caller receives neither the success message nor an error. -/
theorem notifier_failure_keeps_commit_without_response (store : Store)
    (reqs : List BookingReq) (eventId : String) (user : Requester)
    (today : String) (store' : Store) (msg : String)
    (h : book store reqs eventId user today true = (store', .ok msg)) :
    book store reqs eventId user today false = (store', .noResponse) := by
  obtain ⟨h1, h2, h3, h4, hn, mu, htx, hstore, hmsg⟩ :=
    book_ok_destruct store reqs eventId user today true store' msg h
  subst hstore
  rw [book_build store reqs eventId user today false mu h1 h2 h3 h4 htx]
  rfl

theorem notifier_failure_keeps_commit_without_response_witness :
    book sampleStore [sampleReq] sampleEventId sampleUser sampleDay true =
      (sampleStoreBooked, .ok "Seats booked successfully") ∧
    book sampleStore [sampleReq] sampleEventId sampleUser sampleDay false =
      (sampleStoreBooked, .noResponse) :=
  ⟨by decide,
    notifier_failure_keeps_commit_without_response sampleStore [sampleReq]
      sampleEventId sampleUser sampleDay sampleStoreBooked
      "Seats booked successfully" (by decide)⟩

/-- C5: rejecting a non-admin `book` on an event whose registration is
closed answers with HTTP 500, the system-fault status, not the 400
client-fault status the spec requires: the thrown message is
"Registration for this event is closed" while the status mapper in the
catch block looks for the substring "Registration closed", which never
matches. -/
theorem closed_registration_rejection_maps_to_500 :
    book sampleStoreClosed [sampleReq] sampleEventId sampleUser sampleDay true =
      (sampleStoreClosed, .err 500 "Registration for this event is closed") ∧
    strIncludes "Registration for this event is closed" "Registration closed" = false ∧
    bookErrorStatus "Registration for this event is closed" = 500 := by decide

/-- C9: a successful `book` changes no event, and rewrites the seat list
pointwise by `seatAfterBook`: every seat of the target event whose seatId
is in the batch gains exactly the one entry built from its request (the
occupant name, email and phone, status "booked", and the request's
booking date) appended after its existing entries; every other seat, and
every pre-existing entry, is unchanged. -/
theorem book_success_appends_exactly_one_entry (store : Store)
    (reqs : List BookingReq) (eventId : String) (user : Requester)
    (today : String) (n : Bool) (store' : Store) (msg : String) (e : Event)
    (hkeys : storeKeysNodup store = true)
    (hfind : findEventById store eventId = some e)
    (h : book store reqs eventId user today n = (store', .ok msg)) :
    store'.events = store.events ∧
    store'.seats = store.seats.map (seatAfterBook reqs e.id) :=
  book_ok_seats store reqs eventId user today n store' msg e hkeys hfind h

theorem book_success_appends_exactly_one_entry_witness :
    (storeKeysNodup sampleStore = true ∧
      findEventById sampleStore sampleEventId = some sampleEvent ∧
      book sampleStore [sampleReq] sampleEventId sampleUser sampleDay true =
        (sampleStoreBooked, .ok "Seats booked successfully")) ∧
    (sampleStoreBooked.events = sampleStore.events ∧
      sampleStoreBooked.seats = sampleStore.seats.map (seatAfterBook [sampleReq] sampleEvent.id)) :=
  ⟨⟨by decide, by decide, by decide⟩,
    book_success_appends_exactly_one_entry sampleStore [sampleReq]
      sampleEventId sampleUser sampleDay true sampleStoreBooked
      "Seats booked successfully" sampleEvent (by decide) (by decide) (by decide)⟩

/-- Row letter of the i-th generated seat (row-major, ten columns). -/
def rowOfIndex (i : Nat) : Char := seatRows.getD (i / 10) 'A'

/-- Column number of the i-th generated seat (row-major, ten columns). -/
def colOfIndex (i : Nat) : Nat := i % 10 + 1

set_option maxRecDepth 10000 in
theorem allFreshSeats_eq (eid : String) :
    allFreshSeats eid =
      (List.range 260).map (fun i => freshSeat eid (rowOfIndex i) (colOfIndex i)) := by
  rfl

set_option maxRecDepth 20000 in
set_option maxHeartbeats 2000000 in
theorem allFreshSeats_ids_nodup (eid : String) :
    ((allFreshSeats eid).map (fun s => s.seatId)).Nodup := by
  have h : (allFreshSeats eid).map (fun s => s.seatId) =
      (allFreshSeats "x").map (fun s => s.seatId) := rfl
  rw [h]
  decide

theorem allFreshSeats_length (eid : String) : (allFreshSeats eid).length = 260 := by
  rw [allFreshSeats_eq]
  simp

theorem mem_allFreshSeats_eventId (eid : String) (s : Seat)
    (h : s ∈ allFreshSeats eid) : s.eventId = eid := by
  rw [allFreshSeats_eq] at h
  obtain ⟨i, hi, rfl⟩ := List.mem_map.mp h
  rfl

def emptyStore : Store := { events := [], seats := [] }

/-- C6: for a capacity c in [1,260], when the event holds fewer than c
seats, `initializeSeats` leaves the event with exactly the c generated
seats: pairwise-distinct seatIds, enumerated row-major (seat i is row
letter i/10, column i%10+1, rows A..Z, columns 1..10); when the event
already holds at least c seats, the call changes nothing. -/
theorem initializeSeats_generates_row_major (store : Store) (eventId : String)
    (c : Nat) (h1 : 1 ≤ c) (h2 : c ≤ 260) :
    (countSeats store eventId < c →
      eventSeats (initializeSeats store eventId c) eventId = generatedSeats eventId c ∧
      (generatedSeats eventId c).length = c ∧
      ((generatedSeats eventId c).map (fun s => s.seatId)).Nodup ∧
      generatedSeats eventId c =
        (List.range c).map (fun i => freshSeat eventId (rowOfIndex i) (colOfIndex i))) ∧
    (c ≤ countSeats store eventId → initializeSeats store eventId c = store) := by
  constructor
  · intro hlt
    have hnotle : ¬(c ≤ countSeats store eventId) := by omega
    refine ⟨?_, ?_, ?_, ?_⟩
    · unfold initializeSeats
      rw [if_neg hnotle]
      unfold eventSeats
      show (store.seats.filter (fun s => s.eventId != eventId) ++
        generatedSeats eventId c).filter (fun s => s.eventId == eventId) = _
      rw [List.filter_append]
      have hleft : (store.seats.filter (fun s => s.eventId != eventId)).filter
          (fun s => s.eventId == eventId) = [] := by
        rw [List.filter_eq_nil_iff]
        intro s hs hpos
        have hneg := (List.mem_filter.mp hs).2
        rw [bne_iff_ne] at hneg
        exact hneg (eq_of_beq hpos)
      have hright : (generatedSeats eventId c).filter
          (fun s => s.eventId == eventId) = generatedSeats eventId c := by
        rw [List.filter_eq_self]
        intro s hs
        have hmem : s ∈ allFreshSeats eventId :=
          List.take_sublist c (allFreshSeats eventId) |>.subset hs
        rw [beq_iff_eq]
        exact mem_allFreshSeats_eventId eventId s hmem
      rw [hleft, hright, List.nil_append]
    · unfold generatedSeats
      rw [List.length_take, allFreshSeats_length]
      omega
    · exact (((List.take_sublist c (allFreshSeats eventId)).map _).nodup
        (allFreshSeats_ids_nodup eventId))
    · unfold generatedSeats
      rw [allFreshSeats_eq, ← List.map_take, List.take_range, Nat.min_eq_left h2]
  · intro hge
    unfold initializeSeats
    rw [if_pos hge]

theorem initializeSeats_generates_row_major_witness :
    (1 ≤ 12 ∧ 12 ≤ 260) ∧
    ((countSeats emptyStore "e" < 12 →
      eventSeats (initializeSeats emptyStore "e" 12) "e" = generatedSeats "e" 12 ∧
      (generatedSeats "e" 12).length = 12 ∧
      ((generatedSeats "e" 12).map (fun s => s.seatId)).Nodup ∧
      generatedSeats "e" 12 =
        (List.range 12).map (fun i => freshSeat "e" (rowOfIndex i) (colOfIndex i))) ∧
    (12 ≤ countSeats emptyStore "e" → initializeSeats emptyStore "e" 12 = emptyStore)) :=
  ⟨⟨by decide, by decide⟩,
    initializeSeats_generates_row_major emptyStore "e" 12 (by decide) (by decide)⟩

/-- C7: on an event whose registrationClosed is true, `book` by a
non-admin requester fails and changes nothing, while the same otherwise
valid call by an admin succeeds — the closed-registration check is
bypassed exactly when the requester holds admin privilege. -/
theorem closed_registration_admin_override (store : Store)
    (reqs : List BookingReq) (eventId today : String) (n : Bool) (e : Event)
    (hfind : findEventById store eventId = some e)
    (hclosed : e.registrationClosed = true)
    (h1 : (reqs.isEmpty || eventId == "") = false)
    (h2 : isValidObjectId eventId = true)
    (h3 : validateReqFields reqs = none)
    (h4 : (reqs.any fun b => b.bookingDate == today) = false)
    (hdate : ∀ b ∈ reqs, b.bookingDate = e.date)
    (hdup : (reqs.map (fun b => b.seatId)).dedup.length = reqs.length)
    (hlen : (findBatchSeats store (reqs.map (fun b => b.seatId)) e.id).length = reqs.length)
    (hbooked : ∀ s ∈ findBatchSeats store (reqs.map (fun b => b.seatId)) e.id,
      ∀ bk ∈ s.bookings, ¬bk.date = e.date) :
    ((book store reqs eventId ⟨false⟩ today n).2.isSuccess = false ∧
      (book store reqs eventId ⟨false⟩ today n).1 = store) ∧
    (book store reqs eventId ⟨true⟩ today true).2 = .ok "Seats booked successfully" := by
  constructor
  · rcases bookTx_closed_nonadmin store reqs eventId ⟨false⟩ e hfind hclosed rfl
      with htx | htx <;>
    · rw [book_txerr store reqs eventId ⟨false⟩ today n _ h1 h2 h3 h4 htx]
      exact ⟨rfl, rfl⟩
  · have htx := bookTx_build store reqs eventId ⟨true⟩ e hfind hdate
      (fun _ => rfl) hdup hlen hbooked
    rw [book_build store reqs eventId ⟨true⟩ today true _ h1 h2 h3 h4 htx]
    rfl

theorem closed_registration_admin_override_witness :
    (findEventById sampleStoreClosed sampleEventId =
        some { sampleEvent with registrationClosed := true } ∧
      ({ sampleEvent with registrationClosed := true } : Event).registrationClosed = true) ∧
    (((book sampleStoreClosed [sampleReq] sampleEventId ⟨false⟩ sampleDay true).2.isSuccess = false ∧
      (book sampleStoreClosed [sampleReq] sampleEventId ⟨false⟩ sampleDay true).1 = sampleStoreClosed) ∧
      (book sampleStoreClosed [sampleReq] sampleEventId ⟨true⟩ sampleDay true).2 =
        .ok "Seats booked successfully") :=
  ⟨⟨by decide, by decide⟩,
    closed_registration_admin_override sampleStoreClosed [sampleReq]
      sampleEventId sampleDay true { sampleEvent with registrationClosed := true }
      (by decide) (by decide) (by decide) (by decide) (by decide) (by decide)
      (by decide) (by decide) (by decide) (by decide)⟩

/-- Whether an end-registration response is the success response. -/
def CloseResponse.isSuccess : CloseResponse → Bool
  | .ok _ => true
  | .err _ _ => false

theorem findEventById_saveClosedEvent (events : List Event) (id : String) :
    (saveClosedEvent id events).find? (fun e => e.id == id) =
      (events.find? (fun e => e.id == id)).map
        (fun e => { e with registrationClosed := true }) := by
  induction events with
  | nil => rfl
  | cons ev rest ih =>
    unfold saveClosedEvent
    by_cases hid : (ev.id == id) = true
    · rw [if_pos hid]
      simp only [List.find?]
      simp [hid]
    · rw [if_neg hid]
      have hid' : (ev.id == id) = false := by simpa using hid
      simp only [List.find?]
      simp [hid', ih]

/-- C8: closeRegistration fails exactly when the event is missing or its
registration is already closed, leaving the store unchanged; on success it
flips registrationClosed to true without touching seats, and a repeat call
then fails with the already-closed Conflict and changes nothing — the
false-to-true transition happens at most once and is irreversible. -/
theorem closeRegistration_transitions_once (store : Store) (id : String) :
    ((closeRegistration store id).2.isSuccess =
      ((findEventById store id).map (fun e => !e.registrationClosed)).getD false) ∧
    ((closeRegistration store id).2.isSuccess = false →
      (closeRegistration store id).1 = store) ∧
    ((closeRegistration store id).2.isSuccess = true →
      (closeRegistration store id).1.seats = store.seats ∧
      findEventById (closeRegistration store id).1 id =
        (findEventById store id).map (fun e => { e with registrationClosed := true }) ∧
      closeRegistration (closeRegistration store id).1 id =
        ((closeRegistration store id).1, .err 400 "Registration is already closed")) := by
  cases hfind : findEventById store id with
  | none =>
    have hstep : closeRegistration store id = (store, .err 404 "Event not found") := by
      unfold closeRegistration
      rw [hfind]
    rw [hstep]
    exact ⟨rfl, fun _ => rfl,
      fun hcontr => absurd hcontr (by simp [CloseResponse.isSuccess])⟩
  | some e =>
    cases hc : e.registrationClosed with
    | true =>
      have hstep : closeRegistration store id =
          (store, .err 400 "Registration is already closed") := by
        unfold closeRegistration
        rw [hfind]
        simp [hc]
      rw [hstep]
      refine ⟨by simp [CloseResponse.isSuccess, hc], fun _ => rfl,
        fun hcontr => absurd hcontr (by simp [CloseResponse.isSuccess])⟩
    | false =>
      have hstep : closeRegistration store id =
          ({ store with events := saveClosedEvent id store.events },
            .ok "Registration closed successfully") := by
        unfold closeRegistration
        rw [hfind]
        simp [hc]
      have hfind' : findEventById
          { store with events := saveClosedEvent id store.events } id =
          some { e with registrationClosed := true } := by
        show (saveClosedEvent id store.events).find? (fun e => e.id == id) = _
        rw [findEventById_saveClosedEvent]
        have hfind0 : store.events.find? (fun e => e.id == id) = some e := hfind
        rw [hfind0]
        rfl
      rw [hstep]
      refine ⟨by simp [CloseResponse.isSuccess, hc], ?_, ?_⟩
      · intro hcontr
        simp [CloseResponse.isSuccess] at hcontr
      · intro _
        refine ⟨rfl, ?_, ?_⟩
        · show findEventById { store with events := saveClosedEvent id store.events } id = _
          rw [hfind']
          rfl
        · show closeRegistration { store with events := saveClosedEvent id store.events } id = _
          unfold closeRegistration
          rw [hfind']
          simp

theorem closeRegistration_transitions_once_witness :
    ((closeRegistration sampleStore sampleEventId).2.isSuccess =
      ((findEventById sampleStore sampleEventId).map
        (fun e => !e.registrationClosed)).getD false) ∧
    ((closeRegistration sampleStore sampleEventId).2.isSuccess = false →
      (closeRegistration sampleStore sampleEventId).1 = sampleStore) ∧
    ((closeRegistration sampleStore sampleEventId).2.isSuccess = true →
      (closeRegistration sampleStore sampleEventId).1.seats = sampleStore.seats ∧
      findEventById (closeRegistration sampleStore sampleEventId).1 sampleEventId =
        (findEventById sampleStore sampleEventId).map
          (fun e => { e with registrationClosed := true }) ∧
      closeRegistration (closeRegistration sampleStore sampleEventId).1 sampleEventId =
        ((closeRegistration sampleStore sampleEventId).1,
          .err 400 "Registration is already closed")) :=
  closeRegistration_transitions_once sampleStore sampleEventId

theorem seatWithStatus_of_none (d : String) (s : Seat)
    (hf : s.bookings.find? (fun b => b.date == d) = none) :
    seatWithStatus d s =
      { seatId := s.seatId, row := s.row, column := s.column, price := s.price,
        eventId := s.eventId, bookings := s.bookings,
        status := "available", bookedBy := none } := by
  unfold seatWithStatus
  rw [hf]

theorem seatWithStatus_of_some (d : String) (s : Seat) (bk : BookingEntry)
    (hf : s.bookings.find? (fun b => b.date == d) = some bk) :
    seatWithStatus d s =
      { seatId := s.seatId, row := s.row, column := s.column, price := s.price,
        eventId := s.eventId, bookings := s.bookings,
        status := "booked", bookedBy := some bk.bookedBy } := by
  unfold seatWithStatus
  rw [hf]

/-- C10: in both seat-listing read paths for a date d, a seat is reported
"booked" with a non-null bookedBy exactly when it carries a BookingEntry
whose date equals d, and "available" with null bookedBy otherwise —
entries recorded under any other date do not affect the reported status;
and the returned rows are exactly the per-seat status views of the stored
seats the endpoints read. -/
theorem seat_listing_reports_date_bookings (store store' : Store)
    (d t : String) (e : Event) (s : Seat) (sIds : List String)
    (rows rows2 : List SeatView)
    (hfind : findEventByDate store d = some e)
    (hget : getSeats store d t = (store', .ok rows))
    (hget2 : getSeatsByIds store sIds d t = .ok rows2) :
    ((seatWithStatus d s).status == "booked") = s.bookings.any (fun b => b.date == d) ∧
    ((seatWithStatus d s).status == "available") = !(s.bookings.any (fun b => b.date == d)) ∧
    ((seatWithStatus d s).bookedBy.isSome) = s.bookings.any (fun b => b.date == d) ∧
    (seatWithStatus d s).bookings = s.bookings ∧
    rows = (eventSeats store' e.id).map (seatWithStatus d) ∧
    rows2 = (findBatchSeats store sIds e.id).map (seatWithStatus d) := by
  have hview : ((seatWithStatus d s).status == "booked") = s.bookings.any (fun b => b.date == d) ∧
      ((seatWithStatus d s).status == "available") = !(s.bookings.any (fun b => b.date == d)) ∧
      ((seatWithStatus d s).bookedBy.isSome) = s.bookings.any (fun b => b.date == d) ∧
      (seatWithStatus d s).bookings = s.bookings := by
    cases hf : s.bookings.find? (fun b => b.date == d) with
    | none =>
      have hany : s.bookings.any (fun b => b.date == d) = false := by
        rw [List.any_eq_false]
        intro bk hbk
        exact (List.find?_eq_none.mp hf) bk hbk
      rw [seatWithStatus_of_none d s hf, hany]
      exact ⟨rfl, rfl, rfl, rfl⟩
    | some bk =>
      have hany : s.bookings.any (fun b => b.date == d) = true := by
        rw [List.any_eq_true]
        exact ⟨bk, List.mem_of_find?_eq_some hf,
          @List.find?_some BookingEntry (fun b => b.date == d) bk s.bookings hf⟩
      rw [seatWithStatus_of_some d s bk hf, hany]
      exact ⟨rfl, rfl, rfl, rfl⟩
  refine ⟨hview.1, hview.2.1, hview.2.2.1, hview.2.2.2, ?_, ?_⟩
  · unfold getSeats at hget
    by_cases hd1 : (d == "") = true
    · rw [if_pos hd1] at hget
      simp at hget
    · rw [if_neg hd1] at hget
      by_cases hd2 : (d == t) = true
      · rw [if_pos hd2] at hget
        simp at hget
      · rw [if_neg hd2] at hget
        simp only [hfind] at hget
        by_cases hlt : (eventSeats store e.id).length < e.totalSeats
        · rw [if_pos hlt] at hget
          injection hget with hst hr
          injection hr with hrows
          rw [← hst, ← hrows]
        · rw [if_neg hlt] at hget
          injection hget with hst hr
          injection hr with hrows
          rw [← hst, ← hrows]
  · unfold getSeatsByIds at hget2
    by_cases hs1 : (sIds.isEmpty || (d == "")) = true
    · rw [if_pos hs1] at hget2
      simp at hget2
    · rw [if_neg hs1] at hget2
      by_cases hs2 : (!(sIds.all seatIdFormatOk)) = true
      · rw [if_pos hs2] at hget2
        simp at hget2
      · rw [if_neg hs2] at hget2
        by_cases hs3 : (d == t) = true
        · rw [if_pos hs3] at hget2
          simp at hget2
        · rw [if_neg hs3] at hget2
          simp only [hfind] at hget2
          by_cases hs4 : ((findBatchSeats store sIds e.id).isEmpty ||
              (findBatchSeats store sIds e.id).length != sIds.length) = true
          · rw [if_pos hs4] at hget2
            simp at hget2
          · rw [if_neg hs4] at hget2
            injection hget2 with hrows2
            rw [← hrows2]

def sampleBookedSeatA1 : Seat :=
  { freshSeat sampleEventId 'A' 1 with bookings := [mkEntry sampleReq] }

def sampleStoreMissing : Store :=
  { events := [sampleEvent], seats := [sampleBookedSeatA1] }

/-- C3 counterexample: with one stored seat carrying a booking while the
event's capacity is 2, fetching seats for display clears and regenerates
the inventory, so the stored booking entry disappears — the claim that the
seat-fetch read path never deletes seats or their bookings is false. -/
theorem seat_fetch_deletes_bookings_counterexample :
    sampleStoreMissing.seats.any (fun s => !s.bookings.isEmpty) = true ∧
    (getSeats sampleStoreMissing "2025-06-01" sampleDay).1.seats.all
      (fun s => s.bookings.isEmpty) = true := by decide

theorem book_fst_cases (store : Store) (reqs : List BookingReq)
    (eventId : String) (user : Requester) (today : String) (n : Bool) :
    (book store reqs eventId user today n).1 = store ∨
    ∃ mu, bookTx store reqs eventId user = .ok mu ∧
      (book store reqs eventId user today n).1 =
        { store with seats := commitSeats store.seats mu } := by
  unfold book
  by_cases hq1 : (reqs.isEmpty || eventId == "") = true
  · rw [if_pos hq1]; left; rfl
  · rw [if_neg hq1]
    by_cases hq2 : (!isValidObjectId eventId) = true
    · rw [if_pos hq2]; left; rfl
    · rw [if_neg hq2]
      cases hv : validateReqFields reqs with
      | some m => simp only [hv]; left; trivial
      | none =>
        simp only [hv]
        by_cases hq4 : (reqs.any fun b => b.bookingDate == today) = true
        · rw [if_pos hq4]; left; rfl
        · rw [if_neg hq4]
          cases htx : bookTx store reqs eventId user with
          | error m => simp only [htx]; left; trivial
          | ok mu =>
            simp only [htx]
            right
            exact ⟨mu, rfl, by cases n <;> rfl⟩

theorem bookings_sublist_seatAfterBook (reqs : List BookingReq) (eId : String)
    (s : Seat) : s.bookings.Sublist (seatAfterBook reqs eId s).bookings := by
  unfold seatAfterBook
  split
  · split
    · exact List.sublist_append_left _ _
    · exact List.Sublist.refl _
  · exact List.Sublist.refl _

/-- C3 (amended): no exposed operation removes a BookingEntry from an
existing seat except the seat-fetch read path's reinitialization: when the
stored seat count for the event is at least its capacity the fetch changes
nothing; when it is smaller, the fetch clears and regenerates the event's
seats with empty ledgers, discarding the existing BookingEntries.  `book`
only ever extends each seat's ledger and `closeRegistration` never touches
seats. -/
theorem booking_ledger_only_grows_except_reinit (store : Store)
    (d t id eventId : String) (reqs : List BookingReq) (user : Requester)
    (n : Bool) (e : Event)
    (hkeys : storeKeysNodup store = true)
    (hd1 : (d == "") = false) (hd2 : (d == t) = false)
    (hfind : findEventByDate store d = some e) :
    (e.totalSeats ≤ (eventSeats store e.id).length → (getSeats store d t).1 = store) ∧
    ((eventSeats store e.id).length < e.totalSeats →
      (getSeats store d t).1 = initializeSeats store e.id e.totalSeats ∧
      (eventSeats (getSeats store d t).1 e.id).all (fun s => s.bookings.isEmpty) = true) ∧
    List.Forall₂ (fun s s' => s.bookings.Sublist s'.bookings) store.seats
      (book store reqs eventId user t n).1.seats ∧
    (closeRegistration store id).1.seats = store.seats := by
  have hstep : getSeats store d t =
      (if (eventSeats store e.id).length < e.totalSeats then
        (initializeSeats store e.id e.totalSeats,
          .ok ((eventSeats (initializeSeats store e.id e.totalSeats) e.id).map (seatWithStatus d)))
      else (store, .ok ((eventSeats store e.id).map (seatWithStatus d)))) := by
    unfold getSeats
    rw [hd1, hd2]
    simp only [hfind, Bool.false_eq_true, if_false]
  refine ⟨?_, ?_, ?_, ?_⟩
  · intro hge
    have hnlt : ¬((eventSeats store e.id).length < e.totalSeats) := by omega
    rw [hstep, if_neg hnlt]
  · intro hlt
    rw [hstep, if_pos hlt]
    refine ⟨rfl, ?_⟩
    have hnotle : ¬(e.totalSeats ≤ countSeats store e.id) := by
      show ¬(e.totalSeats ≤ (eventSeats store e.id).length)
      omega
    show (eventSeats (initializeSeats store e.id e.totalSeats) e.id).all
      (fun s => s.bookings.isEmpty) = true
    unfold initializeSeats
    rw [if_neg hnotle]
    rw [List.all_eq_true]
    intro s hs
    unfold eventSeats at hs
    have hs' := (List.mem_filter.mp hs).1
    rcases List.mem_append.mp hs' with hleft | hright
    · have := (List.mem_filter.mp hleft).2
      have hsev := (List.mem_filter.mp hs).2
      rw [bne_iff_ne] at this
      exact absurd (eq_of_beq hsev) this
    · have hmem : s ∈ allFreshSeats e.id :=
        (List.take_sublist _ _).subset hright
      rw [allFreshSeats_eq] at hmem
      obtain ⟨i, hi, rfl⟩ := List.mem_map.mp hmem
      rfl
  · rcases book_fst_cases store reqs eventId user t n with hcase | ⟨mu, htx, hcase⟩
    · rw [hcase]
      exact List.forall₂_same.mpr (fun s _ => List.Sublist.refl _)
    · obtain ⟨e₂, hfind₂, hdate₂, hreg₂, hdup₂, hlen₂, hbooked₂, hmu⟩ :=
        bookTx_ok_destruct store reqs eventId user mu htx
      have hkeys' : (store.seats.map (fun s => (s.eventId, s.seatId))).Nodup :=
        of_decide_eq_true hkeys
      have hids : (reqs.map (fun b => b.seatId)).Nodup := by
        rw [← dedup_length_iff, List.length_map]
        exact hdup₂
      rw [hcase]
      show List.Forall₂ _ store.seats (commitSeats store.seats mu)
      rw [hmu, commitSeats_applyBookings store reqs e₂.id hkeys']
      have hmapped : commitSeats store.seats (applyBookings reqs
          (findBatchSeats store (reqs.map (fun b => b.seatId)) e₂.id)) =
          store.seats.map (seatAfterBook reqs e₂.id) := by
        rw [commitSeats_applyBookings store reqs e₂.id hkeys']
        apply List.map_congr_left
        intro s hs
        exact seatAfterBatch_eq_seatAfterBook reqs e₂.id hids s
      have hmapped' : store.seats.map (fun s =>
          if (reqs.map (fun b => b.seatId)).contains s.seatId && s.eventId == e₂.id then
            seatAfterBatch reqs s else s) = store.seats.map (seatAfterBook reqs e₂.id) := by
        apply List.map_congr_left
        intro s hs
        exact seatAfterBatch_eq_seatAfterBook reqs e₂.id hids s
      rw [hmapped']
      rw [List.forall₂_map_right_iff]
      rw [List.forall₂_same]
      intro s hs
      exact bookings_sublist_seatAfterBook reqs e₂.id s
  · unfold closeRegistration
    cases hf : findEventById store id with
    | none => rfl
    | some ev =>
      by_cases hc : ev.registrationClosed = true
      · simp [hc]
      · simp [hc]

theorem booking_ledger_only_grows_except_reinit_witness :
    (storeKeysNodup sampleStoreMissing = true ∧
      findEventByDate sampleStoreMissing "2025-06-01" = some sampleEvent) ∧
    ((sampleEvent.totalSeats ≤ (eventSeats sampleStoreMissing sampleEvent.id).length →
        (getSeats sampleStoreMissing "2025-06-01" sampleDay).1 = sampleStoreMissing) ∧
      ((eventSeats sampleStoreMissing sampleEvent.id).length < sampleEvent.totalSeats →
        (getSeats sampleStoreMissing "2025-06-01" sampleDay).1 =
          initializeSeats sampleStoreMissing sampleEvent.id sampleEvent.totalSeats ∧
        (eventSeats (getSeats sampleStoreMissing "2025-06-01" sampleDay).1 sampleEvent.id).all
          (fun s => s.bookings.isEmpty) = true) ∧
      List.Forall₂ (fun s s' => s.bookings.Sublist s'.bookings) sampleStoreMissing.seats
        (book sampleStoreMissing [sampleReqA2] sampleEventId sampleUser sampleDay true).1.seats ∧
      (closeRegistration sampleStoreMissing sampleEventId).1.seats = sampleStoreMissing.seats) :=
  ⟨⟨by decide, by decide⟩,
    booking_ledger_only_grows_except_reinit sampleStoreMissing "2025-06-01"
      sampleDay sampleEventId sampleEventId [sampleReqA2] sampleUser true
      sampleEvent (by decide) (by decide) (by decide) (by decide)⟩

theorem seat_listing_reports_date_bookings_witness :
    (findEventByDate sampleStoreBooked "2025-06-01" = some sampleEvent ∧
      getSeats sampleStoreBooked "2025-06-01" sampleDay =
        (sampleStoreBooked, .ok ((eventSeats sampleStoreBooked sampleEvent.id).map
          (seatWithStatus "2025-06-01"))) ∧
      getSeatsByIds sampleStoreBooked ["A1", "A2"] "2025-06-01" sampleDay =
        .ok ((findBatchSeats sampleStoreBooked ["A1", "A2"] sampleEvent.id).map
          (seatWithStatus "2025-06-01"))) ∧
    (((seatWithStatus "2025-06-01" sampleBookedSeatA1).status == "booked") =
        sampleBookedSeatA1.bookings.any (fun b => b.date == "2025-06-01") ∧
      ((seatWithStatus "2025-06-01" sampleBookedSeatA1).status == "available") =
        !(sampleBookedSeatA1.bookings.any (fun b => b.date == "2025-06-01")) ∧
      ((seatWithStatus "2025-06-01" sampleBookedSeatA1).bookedBy.isSome) =
        sampleBookedSeatA1.bookings.any (fun b => b.date == "2025-06-01") ∧
      (seatWithStatus "2025-06-01" sampleBookedSeatA1).bookings = sampleBookedSeatA1.bookings ∧
      (eventSeats sampleStoreBooked sampleEvent.id).map (seatWithStatus "2025-06-01") =
        (eventSeats sampleStoreBooked sampleEvent.id).map (seatWithStatus "2025-06-01") ∧
      (findBatchSeats sampleStoreBooked ["A1", "A2"] sampleEvent.id).map (seatWithStatus "2025-06-01") =
        (findBatchSeats sampleStoreBooked ["A1", "A2"] sampleEvent.id).map (seatWithStatus "2025-06-01")) :=
  ⟨⟨by decide, by decide, by decide⟩,
    seat_listing_reports_date_bookings sampleStoreBooked sampleStoreBooked
      "2025-06-01" sampleDay sampleEvent sampleBookedSeatA1 ["A1", "A2"]
      ((eventSeats sampleStoreBooked sampleEvent.id).map (seatWithStatus "2025-06-01"))
      ((findBatchSeats sampleStoreBooked ["A1", "A2"] sampleEvent.id).map (seatWithStatus "2025-06-01"))
      (by decide) (by decide) (by decide)⟩

end BookingBackend
